import Mathlib

/-!
Verification of the task-manager core (Task entity + TaskManager) against its
specification.  The Python source is embedded shallowly:

* `Priority` / `Status` are the two closed enumerations, with `name` and the
  enumeration-name lookup `ofName` (Python `Priority[s]` / `Status[s]`).
* A Python `Task` object is the structure `Task`.  Because
  `TaskManager.update_task` stores the supplied status with no validation,
  the stored status is modelled as `StatusVal`: either a genuine `Status`
  member or an arbitrary string.  Likewise `update_task` converts only
  *string* priorities and assigns any non-string value verbatim, so the
  stored priority is `PrioVal`: a genuine `Priority` member or an arbitrary
  forced value.
* The process-wide id counter (`Task._id_counter`, a class attribute) is
  threaded explicitly as a `Nat`; every operation that may touch it takes the
  current counter and returns the new one.
* Exceptions become `Except Err`.  Python mutates objects in place, so an
  operation that can fail after mutating returns the post-state together with
  the `Except` result instead of discarding the state on error.
* `datetime.now().isoformat()` is a `now : String` parameter.
* The JSON file read by `load_from_file` is modelled by `FileContent`:
  missing file, invalid JSON, valid JSON whose top level is not iterable,
  or valid JSON whose top level iterates a sequence of items — objects
  (records) or other values, covering array elements, string characters
  and object keys, since the source performs no shape check.  A `Record`
  is a JSON object with the eight task keys, each `Option` to model
  absence (for the two nullable fields, JSON null and absence are merged,
  exactly as `dict.get` does).
-/

namespace TaskMan

inductive Priority
  | LOW
  | MEDIUM
  | HIGH
  | URGENT
deriving DecidableEq, Repr

inductive Status
  | TODO
  | IN_PROGRESS
  | DONE
  | CANCELLED
deriving DecidableEq, Repr

def Priority.name : Priority → String
  | .LOW => "LOW"
  | .MEDIUM => "MEDIUM"
  | .HIGH => "HIGH"
  | .URGENT => "URGENT"

/-- Python `Priority[s]` : enumeration-name lookup (`none` models the raised
`KeyError`, the spec's `UnknownEnumValue`). -/
def Priority.ofName (s : String) : Option Priority :=
  if s = "LOW" then some .LOW
  else if s = "MEDIUM" then some .MEDIUM
  else if s = "HIGH" then some .HIGH
  else if s = "URGENT" then some .URGENT
  else none

def Priority.all : List Priority := [.LOW, .MEDIUM, .HIGH, .URGENT]

def Status.name : Status → String
  | .TODO => "TODO"
  | .IN_PROGRESS => "IN_PROGRESS"
  | .DONE => "DONE"
  | .CANCELLED => "CANCELLED"

/-- Python `Status[s]` : enumeration-name lookup. -/
def Status.ofName (s : String) : Option Status :=
  if s = "TODO" then some .TODO
  else if s = "IN_PROGRESS" then some .IN_PROGRESS
  else if s = "DONE" then some .DONE
  else if s = "CANCELLED" then some .CANCELLED
  else none

def Status.all : List Status := [.TODO, .IN_PROGRESS, .DONE, .CANCELLED]

/-- The dynamic value stored in a task's `status` attribute: `update_task`
assigns whatever it is given, so besides genuine `Status` members an
arbitrary string can end up there. -/
inductive StatusVal
  | enum (s : Status)
  | str (s : String)
deriving DecidableEq, Repr

/-- The dynamic value stored in a task's `priority` attribute.
`update_task` converts a *string* priority by name lookup but assigns any
other value verbatim with no validation, so besides genuine `Priority`
members an arbitrary non-string, non-Priority value (modelled by an
integer, e.g. the Python `5`) can end up there. -/
inductive PrioVal
  | enum (p : Priority)
  | other (v : Int)
deriving DecidableEq, Repr

/-- The error kinds that the spec names, plus the raw Python errors the code
can actually raise.  `missingField` is a `KeyError` on a dict key,
`unknownEnum` a `KeyError` on an enumeration lookup, `invalidTitle` the
constructor's `ValueError`, `invalidPriorityType` the constructor's
`TypeError`, `notFound` the manager's `ValueError` for an unknown id,
`corruptData` the `ValueError` raised by `load_from_file`,
`typeErrorNotIndexable` the `TypeError` raised when the loaded JSON value
or an element of it is indexed/iterated though it is not an object array,
and `attributeError` an uncaught `AttributeError`. -/
inductive Err
  | missingField (key : String)
  | unknownEnum (enumName : String) (memberName : String)
  | invalidTitle
  | invalidPriorityType
  | notFound
  | corruptData
  | typeErrorNotIndexable
  | attributeError (attr : String)
deriving DecidableEq, Repr

/-- Python attribute access `v.name` on a stored status: a `Status` member
has a `name`; a plain string does not (AttributeError). -/
def StatusVal.nameE : StatusVal → Except Err String
  | .enum s => .ok s.name
  | .str _ => .error (.attributeError "name")

/-- Python attribute access `v.name` on a stored priority: a `Priority`
member has a `name`; an arbitrary forced value does not (AttributeError). -/
def PrioVal.nameE : PrioVal → Except Err String
  | .enum p => .ok p.name
  | .other _ => .error (.attributeError "name")

/-- Exception classes caught by `load_from_file`'s
`except (KeyError, TypeError)` clause, which turns them into the
"Fichier de taches corrompu" `ValueError` (the spec's `CorruptData`). -/
def Err.isKeyOrTypeError : Err → Bool
  | .missingField _ => true
  | .unknownEnum _ _ => true
  | .invalidPriorityType => true
  | .typeErrorNotIndexable => true
  | _ => false

/-- A task object (the eight attributes set by `Task.__init__` /
`Task.from_dict`). -/
structure Task where
  id : Int
  title : String
  description : String
  priority : PrioVal
  status : StatusVal
  created_at : String
  completed_at : Option String
  project_id : Option String
deriving DecidableEq, Repr

/-- `Task.__init__`: validates the title and the priority, then increments
the process-wide counter and takes the fresh value as the id.  `now` stands
for `datetime.now().isoformat()`. -/
def Task.construct (c : Nat) (now title description : String)
    (priority : Priority) : Nat × Except Err (Task) :=
  if title = "" then (c, .error .invalidTitle)
  else
    (c + 1, .ok { id := (c + 1 : Nat), title := title, description := description,
                  priority := .enum priority, status := .enum .TODO,
                  created_at := now, completed_at := none, project_id := none })

/-- `Task.mark_completed`. -/
def Task.mark_completed (t : Task) (now : String) : Task :=
  { t with status := .enum .DONE, completed_at := some now }

/-- `Task.assign_to_project` (the argument is text or null by type). -/
def Task.assign_to_project (t : Task) (pid : Option String) : Task :=
  { t with project_id := pid }

/-- A serialized task record: a JSON object with the eight task keys.
`none` on a required field models the key being absent; for the two
nullable fields absence and JSON null coincide (both read back as `None`
through `dict.get`). -/
structure Record where
  id : Option Int
  title : Option String
  description : Option String
  priority : Option String
  status : Option String
  created_at : Option String
  completed_at : Option String
  project_id : Option String
deriving DecidableEq, Repr

/-- `Task.to_dict`: renders the enumeration fields by `name`, the priority
entry being evaluated before the status entry as in the source's dict
literal; fails with an `AttributeError` when the stored priority is a
forced non-Priority value or the stored status a plain string. -/
def Task.to_dict (t : Task) : Except Err Record :=
  match t.priority.nameE with
  | .error e => .error e
  | .ok pn =>
    match t.status.nameE with
    | .error e => .error e
    | .ok sn =>
        .ok { id := some t.id, title := some t.title,
              description := some t.description,
              priority := some pn, status := some sn,
              created_at := some t.created_at,
              completed_at := t.completed_at, project_id := t.project_id }

/-- `Task.from_dict`: evaluates, in Python's order, `data["title"]`,
`data.get("description", "")`, `Priority[data["priority"]]`, then runs the
constructor (empty-title check, counter increment), then overwrites
`task.id`, `task.status`, `task.created_at`, `task.completed_at`,
`task.project_id` from the record.  The returned `Nat` is the counter after
the call (incremented exactly when the constructor body ran). -/
def Task.from_dict (c : Nat) (data : Record) : Nat × Except Err Task :=
  match data.title with
  | none => (c, .error (.missingField "title"))
  | some title =>
    let description := data.description.getD ""
    match data.priority with
    | none => (c, .error (.missingField "priority"))
    | some pn =>
      match Priority.ofName pn with
      | none => (c, .error (.unknownEnum "Priority" pn))
      | some priority =>
        if title = "" then (c, .error .invalidTitle)
        else
          match data.id with
          | none => (c + 1, .error (.missingField "id"))
          | some i =>
            match data.status with
            | none => (c + 1, .error (.missingField "status"))
            | some sn =>
              match Status.ofName sn with
              | none => (c + 1, .error (.unknownEnum "Status" sn))
              | some st =>
                match data.created_at with
                | none => (c + 1, .error (.missingField "created_at"))
                | some ca =>
                  (c + 1, .ok { id := i, title := title,
                                description := description,
                                priority := .enum priority, status := .enum st,
                                created_at := ca,
                                completed_at := data.completed_at,
                                project_id := data.project_id })

/-! ### The manager's dictionary (`self.tasks`, a Python dict id -> Task) -/

/-- `d.get(i)` on the insertion-ordered dictionary. -/
def dictGet : List (Int × Task) → Int → Option Task
  | [], _ => none
  | (k, v) :: rest, i => if k = i then some v else dictGet rest i

/-- Overwrite the value stored under a present key, keeping its position. -/
def dictSet : List (Int × Task) → Int → Task → List (Int × Task)
  | [], _, _ => []
  | (k, v) :: rest, i, t =>
      if k = i then (k, t) :: dictSet rest i t else (k, v) :: dictSet rest i t

/-- Python `d[i] = t`: replace in place when the key exists, else append. -/
def dictInsert (l : List (Int × Task)) (i : Int) (t : Task) : List (Int × Task) :=
  if (dictGet l i).isSome then dictSet l i t else l ++ [(i, t)]

/-- `TaskManager`: the in-memory collection (`storage_file` plays no role in
the embedded operations; the file content is passed explicitly). -/
structure TaskManager where
  tasks : List (Int × Task)
deriving DecidableEq, Repr

/-- `TaskManager.get_task`. -/
def TaskManager.get_task (m : TaskManager) (task_id : Int) : Option Task :=
  dictGet m.tasks task_id

/-- Replace (in place) the task object stored under `task_id`, modelling
Python's in-place mutation of the object held by the dict. -/
def TaskManager.setTask (m : TaskManager) (task_id : Int) (t : Task) : TaskManager :=
  { tasks := dictSet m.tasks task_id t }

/-- `TaskManager.add_task`: constructs a validated task and stores it under
its fresh id.  The counter is threaded explicitly. -/
def TaskManager.add_task (m : TaskManager) (c : Nat) (now title description : String)
    (priority : Priority) : TaskManager × Nat × Except Err Int :=
  match Task.construct c now title description priority with
  | (c', .error e) => (m, c', .error e)
  | (c', .ok t) => ({ tasks := dictInsert m.tasks t.id t }, c', .ok t.id)

/-- The `priority` argument of `update_task`: an already-typed `Priority`
member, a string to be resolved by enumeration-name lookup, or any other
value (modelled by an integer), which the source assigns verbatim since its
`isinstance(priority, str)` guard is the only check. -/
inductive PrioArg
  | typed (p : Priority)
  | text (s : String)
  | other (v : Int)
deriving DecidableEq, Repr

/-- `TaskManager.update_task`: field-by-field in-place mutation in the order
title, description, priority, status.  An unknown priority name raises after
the title/description writes took effect, so the post-state is returned next
to the result instead of being discarded on error.  The status, when
supplied, is stored verbatim with no validation. -/
def TaskManager.update_task (m : TaskManager) (task_id : Int)
    (title description : Option String) (priority : Option PrioArg)
    (status : Option StatusVal) : TaskManager × Except Err Bool :=
  match m.get_task task_id with
  | none => (m, .error .notFound)
  | some task =>
    let task := match title with
      | none => task
      | some t => { task with title := t }
    let task := match description with
      | none => task
      | some d => { task with description := d }
    match priority with
    | some (.text s) =>
        (match Priority.ofName s with
         | none => (m.setTask task_id task, .error (.unknownEnum "Priority" s))
         | some p =>
             let task := { task with priority := PrioVal.enum p }
             let task := match status with
               | none => task
               | some v => { task with status := v }
             (m.setTask task_id task, .ok true))
    | some (.typed p) =>
        let task := { task with priority := PrioVal.enum p }
        let task := match status with
          | none => task
          | some v => { task with status := v }
        (m.setTask task_id task, .ok true)
    | some (.other v0) =>
        let task := { task with priority := PrioVal.other v0 }
        let task := match status with
          | none => task
          | some v => { task with status := v }
        (m.setTask task_id task, .ok true)
    | none =>
        let task := match status with
          | none => task
          | some v => { task with status := v }
        (m.setTask task_id task, .ok true)

/-- `TaskManager.save_to_file`, modelled up to the actual file write: the
JSON array of records it serializes (the `task.to_dict()` list
comprehension), in insertion order. -/
def serializeTasks : List (Int × Task) → Except Err (List Record)
  | [] => .ok []
  | kv :: rest =>
    match kv.2.to_dict with
    | .error e => .error e
    | .ok r =>
      match serializeTasks rest with
      | .error e => .error e
      | .ok rs => .ok (r :: rs)

def TaskManager.save_to_file (m : TaskManager) : Except Err (List Record) :=
  serializeTasks m.tasks

/-- One element the dict comprehension of `load_from_file` iterates over: a
JSON object (read as a `Record`), or any other value — an array element
that is not an object, a character of a top-level string, a key of a
top-level object — which raises `TypeError` when indexed with the string
key `id`. -/
inductive Item
  | obj (r : Record)
  | nonRecord
deriving DecidableEq, Repr

/-- The content found at the path `load_from_file` reads: no file at all, a
file that is not valid JSON, valid JSON whose top level is not iterable at
all (a number, boolean or null — iterating raises `TypeError`), or valid
JSON whose top level is iterable: the source performs no shape check, so an
array yields its elements, a string its characters and an object its keys,
in order.  In particular an empty object or empty string yields the empty
iteration. -/
inductive FileContent
  | missing
  | invalidJson
  | notIterable
  | iterable (items : List Item)

/-- A valid-JSON file whose top level is an array of objects. -/
def FileContent.taskArray (rs : List Record) : FileContent :=
  .iterable (rs.map .obj)

/-- The dict comprehension of `load_from_file`: for each record, the key
`task_data["id"]` is evaluated first (KeyError when absent), then
`Task.from_dict` runs, threading the process-wide counter.  Stops at the
first raised exception. -/
def parseRecords : Nat → List Record → Nat × Except Err (List (Int × Task))
  | c, [] => (c, .ok [])
  | c, r :: rest =>
    match r.id with
    | none => (c, .error (.missingField "id"))
    | some i =>
      match Task.from_dict c r with
      | (c', .error e) => (c', .error e)
      | (c', .ok t) =>
        match parseRecords c' rest with
        | (c'', .error e) => (c'', .error e)
        | (c'', .ok ps) => (c'', .ok ((i, t) :: ps))

/-- The dict comprehension of `load_from_file` over the iterated items: a
non-object item raises `TypeError` when its `id` key is read. -/
def parseItems : Nat → List Item → Nat × Except Err (List (Int × Task))
  | c, [] => (c, .ok [])
  | c, .nonRecord :: _ => (c, .error .typeErrorNotIndexable)
  | c, .obj r :: rest =>
    match r.id with
    | none => (c, .error (.missingField "id"))
    | some i =>
      match Task.from_dict c r with
      | (c', .error e) => (c', .error e)
      | (c', .ok t) =>
        match parseItems c' rest with
        | (c'', .error e) => (c'', .error e)
        | (c'', .ok ps) => (c'', .ok ((i, t) :: ps))

def buildDict (ps : List (Int × Task)) : List (Int × Task) :=
  ps.foldl (fun d p => dictInsert d p.1 p.2) []

/-- `TaskManager.load_from_file`: a missing file returns `false` and changes
nothing; invalid JSON and a non-iterable top level raise the corrupt-data
`ValueError`; over the iterated items, `KeyError`/`TypeError` raised while
parsing are caught and re-raised as corrupt data, other exceptions (the
constructor's empty-title `ValueError`) propagate as they are; when every
item parses — in particular when there are none to iterate, as for an
empty object or string — `self.tasks` is replaced wholesale by the freshly
built dictionary. -/
def TaskManager.load_from_file (m : TaskManager) (c : Nat) (f : FileContent) :
    TaskManager × Nat × Except Err Bool :=
  match f with
  | .missing => (m, c, .ok false)
  | .invalidJson => (m, c, .error .corruptData)
  | .notIterable => (m, c, .error .corruptData)
  | .iterable items =>
    match parseItems c items with
    | (c', .error e) =>
        (m, c', .error (if e.isKeyOrTypeError then .corruptData else e))
    | (c', .ok ps) => ({ tasks := buildDict ps }, c', .ok true)

/-! ### Statistics -/

structure Stats where
  total : Nat
  completed : Nat
  by_priority : List (String × Nat)
  by_status : List (String × Nat)
deriving DecidableEq, Repr

/-- `d[k] += 1` on a string-keyed counting dict: `KeyError` when absent. -/
def bump (d : List (String × Nat)) (k : String) : Except Err (List (String × Nat)) :=
  if d.any (fun p => p.1 = k) then
    .ok (d.map (fun p => if p.1 = k then (p.1, p.2 + 1) else p))
  else .error (.missingField k)

/-- The `for task in tasks_list` loop of `get_statistics`: read
`task.priority.name` (AttributeError on a forced non-Priority value), bump
the priority table, read `task.status.name` (AttributeError on a string
status), bump the status table, and count DONE tasks. -/
def statsLoop : List (Int × Task) → List (String × Nat) → List (String × Nat) →
    Nat → Except Err (List (String × Nat) × List (String × Nat) × Nat)
  | [], bp, bs, comp => .ok (bp, bs, comp)
  | kv :: rest, bp, bs, comp =>
    match kv.2.priority.nameE with
    | .error e => .error e
    | .ok pn =>
      match bump bp pn with
      | .error e => .error e
      | .ok bp' =>
        match kv.2.status.nameE with
        | .error e => .error e
        | .ok sn =>
          match bump bs sn with
          | .error e => .error e
          | .ok bs' =>
            statsLoop rest bp' bs'
              (comp + if kv.2.status = .enum .DONE then 1 else 0)

/-- `TaskManager.get_statistics`: zero-filled tables over every enumeration
member, then the counting loop. -/
def TaskManager.get_statistics (m : TaskManager) : Except Err Stats :=
  match statsLoop m.tasks (Priority.all.map (fun p => (p.name, 0)))
      (Status.all.map (fun s => (s.name, 0))) 0 with
  | .error e => .error e
  | .ok (bp, bs, comp) =>
      .ok { total := m.tasks.length, completed := comp,
            by_priority := bp, by_status := bs }

/-! ### The process-wide counter shared across manager instances (claim C8) -/

/-- A whole process: the class-level id counter plus any number of live
manager instances. -/
structure ProcState where
  counter : Nat
  managers : List TaskManager

/-- One `add_task` call, performed by the manager at index `i` (an index
outside the list acts on a fresh empty manager, to keep the operation
total; the returned id does not depend on the manager at all). -/
def ProcState.addTaskAt (p : ProcState) (i : Nat) (now title description : String)
    (priority : Priority) : ProcState × Except Err Int :=
  let m := p.managers.getD i ⟨[]⟩
  match TaskManager.add_task m p.counter now title description priority with
  | (m', c', r) => ({ counter := c', managers := p.managers.set i m' }, r)

/-- One requested `add_task` call: which manager performs it and with which
arguments. -/
structure AddReq where
  idx : Nat
  now : String
  title : String
  description : String
  priority : Priority

/-- A sequence of `add_task` calls, possibly spread over several manager
instances, with the list of returned results. -/
def runAdds : ProcState → List AddReq → ProcState × List (Except Err Int)
  | p, [] => (p, [])
  | p, r :: rest =>
    match p.addTaskAt r.idx r.now r.title r.description r.priority with
    | (p', res) =>
      match runAdds p' rest with
      | (p'', results) => (p'', res :: results)


/-! ## Helper lemmas -/

theorem priority_ofName_name (p : Priority) : Priority.ofName p.name = some p := by
  cases p <;> rfl

theorem status_ofName_name (s : Status) : Status.ofName s.name = some s := by
  cases s <;> rfl

theorem dictGet_dictSet_self (l : List (Int × Task)) (i : Int) (t : Task)
    (h : (dictGet l i).isSome) : dictGet (dictSet l i t) i = some t := by
  induction l with
  | nil => simp [dictGet] at h
  | cons kv rest ih =>
    obtain ⟨k, v⟩ := kv
    by_cases hk : k = i
    · simp [dictGet, dictSet, hk]
    · simp [dictGet, dictSet, hk] at h ⊢
      exact ih h

theorem get_task_setTask_self (m : TaskManager) (i : Int) (task t : Task)
    (h : m.get_task i = some task) : (m.setTask i t).get_task i = some t := by
  have : (dictGet m.tasks i).isSome := by
    simp [TaskManager.get_task] at h
    simp [h]
  exact dictGet_dictSet_self m.tasks i t this

/-! ## Claims -/

/-- **C1** (corrected), amended form: for every `Task` whose title is
non-empty and whose stored priority and status are genuine `Priority` /
`Status` enumeration members (as holds for every freshly constructed task
and every task mutated with valid values), `fromRecord(toRecord(t))`
succeeds and yields a task all eight of whose fields equal those of `t`,
whatever the current value of the process-wide counter. -/
theorem round_trip_exact (t : Task) (c : Nat) (p : Priority) (s : Status)
    (h1 : t.title ≠ "") (hp : t.priority = .enum p) (h2 : t.status = .enum s) :
    ∃ r, Task.to_dict t = .ok r ∧ Task.from_dict c r = (c + 1, .ok t) := by
  obtain ⟨i, ti, d, pr, st, ca, co, pj⟩ := t
  simp only [Task.title] at h1
  simp only [Task.priority] at hp
  simp only [Task.status] at h2
  subst hp
  subst h2
  refine ⟨_, rfl, ?_⟩
  simp [Task.from_dict, Task.to_dict, StatusVal.nameE, PrioVal.nameE,
    priority_ofName_name, status_ofName_name, h1]

/-- Witness for C1's theorem at a concrete constructed task. -/
theorem round_trip_exact_witness :
    ∃ r, Task.to_dict
        { id := 1, title := "a", description := "d",
          priority := PrioVal.enum Priority.HIGH,
          status := StatusVal.enum Status.TODO, created_at := "T0",
          completed_at := none, project_id := some "p" } = .ok r
      ∧ Task.from_dict 5 r = (6, .ok
        { id := 1, title := "a", description := "d",
          priority := PrioVal.enum Priority.HIGH,
          status := StatusVal.enum Status.TODO, created_at := "T0",
          completed_at := none, project_id := some "p" }) :=
  round_trip_exact _ 5 Priority.HIGH Status.TODO (by decide) rfl rfl

/-- The one-task manager reached by `add_task` on an empty manager
(counter at 0). -/
def mC1 : TaskManager :=
  ⟨[(1, { id := 1, title := "a", description := "",
          priority := PrioVal.enum Priority.MEDIUM,
          status := StatusVal.enum Status.TODO, created_at := "T0",
          completed_at := none, project_id := none })]⟩

/-- Its task after `update_task` wrote an empty title. -/
def tC1e : Task :=
  { id := 1, title := "", description := "",
    priority := PrioVal.enum Priority.MEDIUM,
    status := StatusVal.enum Status.TODO, created_at := "T0",
    completed_at := none, project_id := none }

/-- Its task after `update_task` instead stored the non-Priority value 5
verbatim as the priority. -/
def tC1p : Task :=
  { id := 1, title := "a", description := "", priority := PrioVal.other 5,
    status := StatusVal.enum Status.TODO, created_at := "T0",
    completed_at := none, project_id := none }

/-- **C1 counterexample**: tasks freshly constructed through `add_task` and
then mutated through the manager's update operation break the round trip in
two ways — an update that stores an empty title (no re-validation) yields a
record that `from_dict` rejects with the constructor's `ValueError`, and an
update that stores the non-Priority value 5 verbatim makes `to_dict` itself
fail with an `AttributeError` — so `fromRecord(toRecord(t))` does not
succeed on every mutated task. -/
theorem round_trip_cex :
    TaskManager.add_task ⟨[]⟩ 0 "T0" "a" "" Priority.MEDIUM = (mC1, 1, .ok 1)
    ∧ TaskManager.update_task mC1 1 (some "") none none none
        = (⟨[(1, tC1e)]⟩, .ok true)
    ∧ Task.to_dict tC1e = .ok
        { id := some 1, title := some "", description := some "",
          priority := some "MEDIUM", status := some "TODO",
          created_at := some "T0", completed_at := none, project_id := none }
    ∧ Task.from_dict 5
        { id := some 1, title := some "", description := some "",
          priority := some "MEDIUM", status := some "TODO",
          created_at := some "T0", completed_at := none, project_id := none }
        = (5, .error Err.invalidTitle)
    ∧ TaskManager.update_task mC1 1 none none (some (PrioArg.other 5)) none
        = (⟨[(1, tC1p)]⟩, .ok true)
    ∧ Task.to_dict tC1p = .error (Err.attributeError "name") :=
  ⟨rfl, rfl, rfl, rfl, rfl, rfl⟩

/-- **C2** (confirmed): for every existing task id, `update_task` resolves a
priority supplied as text by enumeration-name lookup — failing with
`UnknownEnumValue` when the name is not a `Priority` member, and assigning
an already-typed `Priority` value without validation — while a supplied
status value of any shape, including text outside the `Status` enumeration,
is stored verbatim as the task's status with no validation at all. -/
theorem update_task_validation (m : TaskManager) (task_id : Int) (task : Task)
    (h : m.get_task task_id = some task) :
    (∀ s, Priority.ofName s = none →
      (m.update_task task_id none none (some (.text s)) none).2
        = .error (.unknownEnum "Priority" s))
    ∧ (∀ s p, Priority.ofName s = some p →
      m.update_task task_id none none (some (.text s)) none
        = (m.setTask task_id { task with priority := PrioVal.enum p }, .ok true))
    ∧ (∀ p, m.update_task task_id none none (some (.typed p)) none
        = (m.setTask task_id { task with priority := PrioVal.enum p }, .ok true))
    ∧ (∀ v, m.update_task task_id none none none (some v)
        = (m.setTask task_id { task with status := v }, .ok true)
      ∧ (m.update_task task_id none none none (some v)).1.get_task task_id
        = some { task with status := v }) := by
  refine ⟨?_, ?_, ?_, ?_⟩
  · intro s hs
    simp [TaskManager.update_task, h, hs]
  · intro s p hs
    simp [TaskManager.update_task, h, hs]
  · intro p
    simp [TaskManager.update_task, h]
  · intro v
    refine ⟨by simp [TaskManager.update_task, h], ?_⟩
    simp [TaskManager.update_task, h]
    exact get_task_setTask_self m task_id task _ h

/-- Witness for C2's theorem on a concrete one-task manager: the unknown
name "BOGUS" fails, the known name "LOW" and the typed value are assigned,
and the non-enumeration status text "NOT_A_STATUS" is stored verbatim. -/
theorem update_task_validation_witness :
    ((mC1.update_task 1 none none (some (.text "BOGUS")) none).2
        = .error (.unknownEnum "Priority" "BOGUS"))
    ∧ (mC1.update_task 1 none none none (some (StatusVal.str "NOT_A_STATUS"))).1.get_task 1
        = some { id := 1, title := "a", description := "",
                 priority := PrioVal.enum Priority.MEDIUM,
                 status := StatusVal.str "NOT_A_STATUS", created_at := "T0",
                 completed_at := none, project_id := none } := by
  have hget : mC1.get_task 1 = some
      { id := 1, title := "a", description := "",
        priority := PrioVal.enum Priority.MEDIUM,
        status := StatusVal.enum Status.TODO, created_at := "T0",
        completed_at := none, project_id := none } := rfl
  have h := update_task_validation mC1 1 _ hget
  exact ⟨h.1 "BOGUS" rfl, (h.2.2.2 (StatusVal.str "NOT_A_STATUS")).2⟩

/-- **C6** (confirmed): `update_task` applies supplied fields in the order
title, description, priority, status, each write effective immediately, and
performs no rollback: when the priority lookup fails on an unknown name,
the supplied title and description have already been written to the task
and remain written in the resulting manager state. -/
theorem update_task_no_rollback (m : TaskManager) (task_id : Int) (task : Task)
    (t d s : String) (h : m.get_task task_id = some task)
    (hbad : Priority.ofName s = none) :
    m.update_task task_id (some t) (some d) (some (.text s)) none
      = (m.setTask task_id { task with title := t, description := d },
         .error (.unknownEnum "Priority" s))
    ∧ (m.update_task task_id (some t) (some d) (some (.text s)) none).1.get_task task_id
      = some { task with title := t, description := d } := by
  constructor
  · simp [TaskManager.update_task, h, hbad]
  · simp [TaskManager.update_task, h, hbad]
    exact get_task_setTask_self m task_id task _ h

/-- Witness for C6's theorem: after the failing update, the task holds the
new title and description. -/
theorem update_task_no_rollback_witness :
    (mC1.update_task 1 (some "new title") (some "new descr") (some (.text "HUGE")) none).1.get_task 1
      = some { id := 1, title := "new title", description := "new descr",
               priority := PrioVal.enum Priority.MEDIUM,
               status := StatusVal.enum Status.TODO, created_at := "T0",
               completed_at := none, project_id := none } :=
  (update_task_no_rollback mC1 1 _ "new title" "new descr" "HUGE" rfl rfl).2

/-- **C9** (confirmed): whenever `load_from_file` fails — in particular when
it fails with `CorruptData` on invalid JSON, a wrong top-level shape, a
missing required field or an unknown enumeration name in some record — the
manager's id-to-Task mapping is exactly what it was before the call: the
replacement assignment only happens after every record has parsed. -/
theorem load_from_file_error_atomic (m : TaskManager) (c : Nat) (f : FileContent)
    (m' : TaskManager) (c' : Nat) (e : Err)
    (h : m.load_from_file c f = (m', c', .error e)) : m'.tasks = m.tasks := by
  cases f with
  | missing => simp [TaskManager.load_from_file, Prod.ext_iff] at h
  | invalidJson =>
    simp [TaskManager.load_from_file, Prod.ext_iff] at h
    rw [← h.1]
  | notIterable =>
    simp [TaskManager.load_from_file, Prod.ext_iff] at h
    rw [← h.1]
  | iterable items =>
    rcases hp : parseItems c items with ⟨c2, res⟩
    cases res with
    | error e2 =>
      simp [TaskManager.load_from_file, hp, Prod.ext_iff] at h
      rw [← h.1]
    | ok ps =>
      simp [TaskManager.load_from_file, hp, Prod.ext_iff] at h

/-- Witness for C9's theorem: a corrupt (non-JSON) file leaves the one-task
manager's mapping intact. -/
theorem load_from_file_error_atomic_witness :
    mC1.load_from_file 0 FileContent.invalidJson = (mC1, 0, .error .corruptData)
    ∧ mC1.tasks = mC1.tasks :=
  ⟨rfl, load_from_file_error_atomic mC1 0 FileContent.invalidJson mC1 0 .corruptData rfl⟩

/-- **C3** (corrected), amended form: `from_dict` fails with a
`MissingField` `KeyError` when a required key is absent — the keys being
examined in the source's order title, priority, id, status, created_at, so
`created_at` is required as well — and when all five are present, the title
non-empty and both enumeration names known, it succeeds with the supplied
`id` used verbatim, independent of the process-wide counter's state; the
reconstruction does, however, increment that counter by one, because it
goes through the ordinary constructor before overwriting the id. -/
theorem from_dict_required_fields (c : Nat) (r : Record) :
    (r.title = none → Task.from_dict c r = (c, .error (.missingField "title")))
    ∧ (∀ t, r.title = some t → r.priority = none →
        Task.from_dict c r = (c, .error (.missingField "priority")))
    ∧ (∀ t pn p, r.title = some t → t ≠ "" → r.priority = some pn →
        Priority.ofName pn = some p → r.id = none →
        Task.from_dict c r = (c + 1, .error (.missingField "id")))
    ∧ (∀ t pn p i, r.title = some t → t ≠ "" → r.priority = some pn →
        Priority.ofName pn = some p → r.id = some i → r.status = none →
        Task.from_dict c r = (c + 1, .error (.missingField "status")))
    ∧ (∀ t pn p i sn st, r.title = some t → t ≠ "" → r.priority = some pn →
        Priority.ofName pn = some p → r.id = some i → r.status = some sn →
        Status.ofName sn = some st → r.created_at = none →
        Task.from_dict c r = (c + 1, .error (.missingField "created_at")))
    ∧ (∀ t pn p i sn st ca, r.title = some t → t ≠ "" → r.priority = some pn →
        Priority.ofName pn = some p → r.id = some i → r.status = some sn →
        Status.ofName sn = some st → r.created_at = some ca →
        ∃ task, (∀ c2, Task.from_dict c2 r = (c2 + 1, .ok task)) ∧ task.id = i) := by
  refine ⟨?_, ?_, ?_, ?_, ?_, ?_⟩
  · intro h1
    simp [Task.from_dict, h1]
  · intro t h1 h2
    simp [Task.from_dict, h1, h2]
  · intro t pn p h1 ht h2 h3 h4
    simp [Task.from_dict, h1, h2, h3, h4, ht]
  · intro t pn p i h1 ht h2 h3 h4 h5
    simp [Task.from_dict, h1, h2, h3, h4, h5, ht]
  · intro t pn p i sn st h1 ht h2 h3 h4 h5 h6 h7
    simp [Task.from_dict, h1, h2, h3, h4, h5, h6, h7, ht]
  · intro t pn p i sn st ca h1 ht h2 h3 h4 h5 h6 h7
    refine ⟨{ id := i, title := t, description := r.description.getD "",
              priority := .enum p, status := .enum st, created_at := ca,
              completed_at := r.completed_at, project_id := r.project_id },
            fun c2 => ?_, rfl⟩
    simp [Task.from_dict, h1, h2, h3, h4, h5, h6, h7, ht]

/-- Witness for C3's theorem: missing-field failures and the verbatim id on
a concrete record. -/
theorem from_dict_required_fields_witness :
    Task.from_dict 0
      { id := some 9, title := some "z", description := none,
        priority := some "LOW", status := none, created_at := some "T1",
        completed_at := none, project_id := none }
      = (1, .error (.missingField "status"))
    ∧ ∃ task, (∀ c2, Task.from_dict c2
      { id := some 9, title := some "z", description := none,
        priority := some "LOW", status := some "DONE", created_at := some "T1",
        completed_at := none, project_id := none } = (c2 + 1, .ok task))
      ∧ task.id = 9 :=
  ⟨(from_dict_required_fields 0 _).2.2.2.1 "z" "LOW" Priority.LOW 9 rfl
      (by decide) rfl rfl rfl rfl,
   (from_dict_required_fields 0 _).2.2.2.2.2 "z" "LOW" Priority.LOW 9 "DONE"
      Status.DONE "T1" rfl (by decide) rfl rfl rfl rfl rfl rfl⟩

/-- **C3 counterexample**: reconstructing a task from a complete record does
alter the process-wide id-assignment counter — `from_dict` runs the
ordinary constructor before overwriting the id, so the counter moves from
41 to 42 — contradicting the claim that the counter's state is not altered
by the reconstruction. -/
theorem from_dict_counter_cex :
    Task.from_dict 41
      { id := some 3, title := some "z", description := none,
        priority := some "LOW", status := some "DONE", created_at := some "T1",
        completed_at := none, project_id := none }
      = (42, .ok { id := 3, title := "z", description := "",
                   priority := PrioVal.enum Priority.LOW,
                   status := StatusVal.enum Status.DONE,
                   created_at := "T1", completed_at := none,
                   project_id := none })
    ∧ (42 : Nat) ≠ 41 :=
  ⟨rfl, by decide⟩

/-- A record lacking one of the four keys the spec calls required. -/
def Record.missingRequired (r : Record) : Bool :=
  r.id.isNone || r.title.isNone || r.priority.isNone || r.status.isNone

/-- Every failure of `from_dict` on a record whose title key, when present,
is not the empty string is a `KeyError` (missing key or unknown enumeration
name) — exactly the class `load_from_file` converts to corrupt data. -/
theorem from_dict_err_kind (c c2 : Nat) (r : Record) (e : Err)
    (hne : r.title ≠ some "") (h : Task.from_dict c r = (c2, .error e)) :
    e.isKeyOrTypeError = true := by
  obtain ⟨rid, rti, rde, rpr, rst, rca, rco, rpj⟩ := r
  cases rti with
  | none =>
    simp only [Task.from_dict, Prod.mk.injEq, Except.error.injEq] at h
    rw [← h.2] ; rfl
  | some t =>
    cases rpr with
    | none =>
      simp only [Task.from_dict, Prod.mk.injEq, Except.error.injEq] at h
      rw [← h.2] ; rfl
    | some pn =>
      cases hpn : Priority.ofName pn with
      | none =>
        simp only [Task.from_dict, hpn, Prod.mk.injEq, Except.error.injEq] at h
        rw [← h.2] ; rfl
      | some p =>
        have ht : ¬ t = "" := by simpa using hne
        cases rid with
        | none =>
          simp only [Task.from_dict, hpn, if_neg ht, Prod.mk.injEq,
            Except.error.injEq] at h
          rw [← h.2] ; rfl
        | some i =>
          cases rst with
          | none =>
            simp only [Task.from_dict, hpn, if_neg ht, Prod.mk.injEq,
              Except.error.injEq] at h
            rw [← h.2] ; rfl
          | some sn =>
            cases hsn : Status.ofName sn with
            | none =>
              simp only [Task.from_dict, hpn, hsn, if_neg ht, Prod.mk.injEq,
                Except.error.injEq] at h
              rw [← h.2] ; rfl
            | some st =>
              cases rca with
              | none =>
                simp only [Task.from_dict, hpn, hsn, if_neg ht, Prod.mk.injEq,
                  Except.error.injEq] at h
                rw [← h.2] ; rfl
              | some ca =>
                simp only [Task.from_dict, hpn, hsn, if_neg ht,
                  Prod.mk.injEq] at h
                simp_all

/-- A record `from_dict` accepts has all four spec-required keys. -/
theorem from_dict_ok_fields (c c2 : Nat) (r : Record) (task : Task)
    (h : Task.from_dict c r = (c2, .ok task)) : r.missingRequired = false := by
  obtain ⟨rid, rti, rde, rpr, rst, rca, rco, rpj⟩ := r
  cases rti with
  | none => simp_all [Task.from_dict]
  | some t =>
    cases rpr with
    | none => simp_all [Task.from_dict]
    | some pn =>
      cases hpn : Priority.ofName pn with
      | none => simp only [Task.from_dict, hpn, Prod.mk.injEq] at h; simp_all
      | some p =>
        by_cases ht : t = ""
        · simp_all [Task.from_dict]
        · cases rid with
          | none => simp only [Task.from_dict, hpn, if_neg ht, Prod.mk.injEq] at h; simp_all
          | some i =>
            cases rst with
            | none => simp only [Task.from_dict, hpn, if_neg ht, Prod.mk.injEq] at h; simp_all
            | some sn =>
              simp [Record.missingRequired]

/-- Parsing an item sequence that contains a non-object item or a record
lacking a required key fails, and fails with a `KeyError`/`TypeError`-class
error, as long as no record carries an empty title (an empty title would
abort parsing with the constructor's `ValueError` first). -/
theorem parseItems_err_of_bad (c : Nat) (items : List Item)
    (hne : ∀ r, Item.obj r ∈ items → r.title ≠ some "")
    (hbad : Item.nonRecord ∈ items
      ∨ ∃ r, Item.obj r ∈ items ∧ r.missingRequired = true) :
    ∃ c' e, parseItems c items = (c', .error e) ∧ e.isKeyOrTypeError = true := by
  induction items generalizing c with
  | nil =>
    rcases hbad with hb | ⟨r, hb, -⟩ <;> simp at hb
  | cons it rest ih =>
    cases it with
    | nonRecord => exact ⟨c, .typeErrorNotIndexable, rfl, rfl⟩
    | obj r =>
      cases hid : r.id with
      | none =>
        exact ⟨c, .missingField "id", by simp [parseItems, hid], rfl⟩
      | some i =>
        rcases hfd : Task.from_dict c r with ⟨c2, res⟩
        cases res with
        | error e =>
          refine ⟨c2, e, by simp [parseItems, hid, hfd], ?_⟩
          exact from_dict_err_kind c c2 r e (hne r (by simp)) hfd
        | ok task =>
          have hr : r.missingRequired = false :=
            from_dict_ok_fields c c2 r task hfd
          have hbad' : Item.nonRecord ∈ rest
              ∨ ∃ r2, Item.obj r2 ∈ rest ∧ r2.missingRequired = true := by
            rcases hbad with hb | ⟨r2, hmem, hm⟩
            · left
              rcases List.mem_cons.mp hb with h1 | h1
              · simp at h1
              · exact h1
            · right
              rcases List.mem_cons.mp hmem with h1 | h1
              · obtain rfl : r2 = r := by
                  injection h1
                rw [hr] at hm
                cases hm
              · exact ⟨r2, h1, hm⟩
          rcases ih c2 (fun r2 h2 => hne r2 (List.mem_cons_of_mem _ h2)) hbad'
            with ⟨c', e, hp, hk⟩
          refine ⟨c', e, ?_, hk⟩
          simp [parseItems, hid, hfd, hp]

/-- **C4** (corrected), amended form: `load_from_file` on a missing file
returns the falsy "not loaded" indicator without raising and leaves the
in-memory collection (and the counter) exactly as they were; on a file that
is not valid JSON, or whose top level is not iterable at all, it fails with
`CorruptData`; on an iterable top level that yields a non-object item —
e.g. a non-empty object or string, or an array with a non-object element —
or a record lacking a required key, it also fails with `CorruptData`,
provided every record's title, when present, is a non-empty string (a
record with an empty title makes the call fail with the constructor's
`InvalidArgument` error instead, uncaught by the corrupt-data handler).  In
every failing case the collection is left as it was.  But a top level whose
iteration is empty — an empty object or empty string — is *not* rejected:
the load succeeds, returns the truthy indicator and replaces the
collection with the empty one. -/
theorem load_from_file_error_cases :
    (∀ (m : TaskManager) (c : Nat),
      m.load_from_file c .missing = (m, c, .ok false))
    ∧ (∀ (m : TaskManager) (c : Nat),
      m.load_from_file c .invalidJson = (m, c, .error .corruptData))
    ∧ (∀ (m : TaskManager) (c : Nat),
      m.load_from_file c .notIterable = (m, c, .error .corruptData))
    ∧ (∀ (m : TaskManager) (c : Nat) (items : List Item),
      (∀ r, Item.obj r ∈ items → r.title ≠ some "") →
      (Item.nonRecord ∈ items
        ∨ ∃ r, Item.obj r ∈ items ∧ r.missingRequired = true) →
      ∃ c', m.load_from_file c (.iterable items) = (m, c', .error .corruptData))
    ∧ (∀ (m : TaskManager) (c : Nat),
      m.load_from_file c (.iterable []) = (⟨[]⟩, c, .ok true)) := by
  refine ⟨fun m c => rfl, fun m c => rfl, fun m c => rfl,
    fun m c items hne hbad => ?_, fun m c => rfl⟩
  rcases parseItems_err_of_bad c items hne hbad with ⟨c', e, hp, hk⟩
  exact ⟨c', by simp [TaskManager.load_from_file, hp, hk]⟩

/-- Witness for C4's theorem: the spec's probe file holding a single
non-empty object (its one iterated item is a key string, not a record)
makes the load fail with `CorruptData` and leave the one-task manager
untouched. -/
theorem load_from_file_error_cases_witness :
    ∃ c', mC1.load_from_file 0 (.iterable [Item.nonRecord])
      = (mC1, c', .error .corruptData) :=
  load_from_file_error_cases.2.2.2.1 mC1 0 [Item.nonRecord]
    (by intro r hr; simp at hr) (Or.inl (by simp))

/-- **C4 counterexample**: two files refute the original claim.  A file
whose top level is an array of records in which the second record lacks the
required `id` key — per the claim a `CorruptData` failure — actually fails
with the constructor's empty-title `ValueError` (`InvalidArgument`),
because the first record carries an empty title and that exception is not
caught by the corrupt-data handler.  And a file holding an empty object —
a top-level shape that is not an array of records at all — does not fail
with `CorruptData` either: the comprehension iterates nothing, so the load
succeeds, returns the truthy indicator and silently empties the
collection. -/
theorem load_from_file_corrupt_cex :
    TaskManager.load_from_file ⟨[]⟩ 0 (.taskArray
      [{ id := some 1, title := some "", description := none,
         priority := some "LOW", status := some "DONE",
         created_at := some "T1", completed_at := none, project_id := none },
       { id := none, title := some "q", description := none,
         priority := some "LOW", status := some "TODO",
         created_at := some "T1", completed_at := none, project_id := none }])
      = (⟨[]⟩, 0, .error .invalidTitle)
    ∧ Err.invalidTitle ≠ Err.corruptData
    ∧ ({ id := none, title := some "q", description := none,
         priority := some "LOW", status := some "TODO",
         created_at := some "T1", completed_at := none,
         project_id := none } : Record).missingRequired = true
    ∧ mC1.load_from_file 0 (.iterable []) = (⟨[]⟩, 0, .ok true) :=
  ⟨rfl, by decide, rfl, rfl⟩

/-- `dictSet` never changes which keys are present. -/
theorem dictGet_dictSet_isSome (l : List (Int × Task)) (k i : Int) (t : Task) :
    (dictGet (dictSet l k t) i).isSome = (dictGet l i).isSome := by
  induction l with
  | nil => rfl
  | cons kv rest ih =>
    obtain ⟨k0, v0⟩ := kv
    by_cases h0 : k0 = k
    · subst h0
      by_cases h1 : k0 = i
      · subst h1
        simp [dictSet, dictGet]
      · simp [dictSet, dictGet, h1, ih]
    · by_cases h1 : k0 = i
      · subst h1
        simp [dictSet, dictGet, h0]
      · simp [dictSet, dictGet, h0, h1, ih]

/-- A key present after appending one pair was present before or is the
appended key. -/
theorem dictGet_append_single (l : List (Int × Task)) (k i : Int) (t : Task)
    (h : (dictGet (l ++ [(k, t)]) i).isSome) :
    (dictGet l i).isSome ∨ k = i := by
  induction l with
  | nil =>
    by_cases h1 : k = i
    · exact Or.inr h1
    · simp only [List.nil_append, dictGet, if_neg h1] at h
      simp [dictGet] at h
  | cons kv rest ih =>
    obtain ⟨k0, v0⟩ := kv
    by_cases h1 : k0 = i
    · exact Or.inl (by simp [dictGet, h1])
    · simp only [List.cons_append, dictGet, if_neg h1] at h ⊢
      exact ih h

/-- A key present after `dictInsert` was present before or is the inserted
key. -/
theorem dictGet_dictInsert_isSome (l : List (Int × Task)) (k i : Int) (t : Task)
    (h : (dictGet (dictInsert l k t) i).isSome) :
    (dictGet l i).isSome ∨ k = i := by
  unfold dictInsert at h
  by_cases hk : (dictGet l k).isSome
  · rw [if_pos hk, dictGet_dictSet_isSome] at h
    exact Or.inl h
  · rw [if_neg hk] at h
    exact dictGet_append_single l k i t h

/-- A key present in a fold of `dictInsert`s was present at the start or is
the key of one of the inserted pairs. -/
theorem foldl_dictInsert_keys (ps : List (Int × Task)) (d : List (Int × Task))
    (i : Int)
    (h : (dictGet (ps.foldl (fun d p => dictInsert d p.1 p.2) d) i).isSome) :
    (dictGet d i).isSome ∨ ∃ q ∈ ps, q.1 = i := by
  induction ps generalizing d with
  | nil => exact Or.inl h
  | cons p rest ih =>
    simp only [List.foldl_cons] at h
    rcases ih (dictInsert d p.1 p.2) h with h2 | h2
    · rcases dictGet_dictInsert_isSome d p.1 i p.2 h2 with h3 | h3
      · exact Or.inl h3
      · exact Or.inr ⟨p, by simp, h3⟩
    · rcases h2 with ⟨q, hq, hqi⟩
      exact Or.inr ⟨q, by simp [hq], hqi⟩

/-- A key present in the dictionary built from a list of pairs is the key of
one of the pairs. -/
theorem buildDict_keys (ps : List (Int × Task)) (i : Int)
    (h : (dictGet (buildDict ps) i).isSome) : ∃ q ∈ ps, q.1 = i := by
  rcases foldl_dictInsert_keys ps [] i h with h2 | h2
  · simp [dictGet] at h2
  · exact h2

/-- Every pair produced by `parseRecords` is keyed by its own record's
`id`. -/
theorem parseRecords_keys (c c' : Nat) (rs : List Record)
    (ps : List (Int × Task)) (h : parseRecords c rs = (c', .ok ps)) :
    ∀ q ∈ ps, ∃ r ∈ rs, r.id = some q.1 := by
  induction rs generalizing c c' ps with
  | nil =>
    simp only [parseRecords, Prod.mk.injEq, Except.ok.injEq] at h
    rw [← h.2]
    simp
  | cons r rest ih =>
    cases hid : r.id with
    | none => simp [parseRecords, hid] at h
    | some i =>
      rcases hfd : Task.from_dict c r with ⟨c2, res⟩
      cases res with
      | error e => simp [parseRecords, hid, hfd] at h
      | ok task =>
        rcases hp : parseRecords c2 rest with ⟨c3, res2⟩
        cases res2 with
        | error e => simp [parseRecords, hid, hfd, hp] at h
        | ok ps2 =>
          simp only [parseRecords, hid, hfd, hp, Prod.mk.injEq,
            Except.ok.injEq] at h
          rw [← h.2]
          intro q hq
          rcases List.mem_cons.mp hq with h1 | h1
          · exact ⟨r, by simp, by rw [h1, hid]⟩
          · rcases ih c2 c3 ps2 hp q h1 with ⟨r2, hr2, hr2i⟩
            exact ⟨r2, List.mem_cons_of_mem r hr2, hr2i⟩

/-- Over an array whose elements are all objects, the comprehension is the
record parser. -/
theorem parseItems_map_obj (c : Nat) (rs : List Record) :
    parseItems c (rs.map .obj) = parseRecords c rs := by
  induction rs generalizing c with
  | nil => rfl
  | cons r rest ih =>
    simp only [List.map_cons, parseItems, parseRecords]
    cases r.id with
    | none => rfl
    | some i =>
      cases hfd : Task.from_dict c r with
      | mk c2 res =>
        cases res with
        | error e => simp [hfd]
        | ok t => simp [hfd, ih]

/-- **C5** (confirmed): on a well-formed file, `load_from_file` replaces the
whole in-memory collection — it is not a merge — with the freshly parsed
tasks keyed by each record's own id, returns the truthy "loaded"
indicator, and every previously held task whose id appears in no record of
the file is gone afterwards. -/
theorem load_from_file_replaces (m : TaskManager) (c c' : Nat)
    (rs : List Record) (ps : List (Int × Task))
    (h : parseRecords c rs = (c', .ok ps)) :
    m.load_from_file c (.taskArray rs) = ({ tasks := buildDict ps }, c', .ok true)
    ∧ (∀ q ∈ ps, ∃ r ∈ rs, r.id = some q.1)
    ∧ (∀ i : Int, (∀ r ∈ rs, r.id ≠ some i) →
        (m.load_from_file c (.taskArray rs)).1.get_task i = none) := by
  refine ⟨by simp [TaskManager.load_from_file, FileContent.taskArray,
      parseItems_map_obj, h],
    parseRecords_keys c c' rs ps h, ?_⟩
  intro i hi
  simp only [TaskManager.load_from_file, FileContent.taskArray,
    parseItems_map_obj, h]
  cases hg : ((⟨buildDict ps⟩ : TaskManager).get_task i) with
  | none => rfl
  | some v =>
    exfalso
    have hs : (dictGet (buildDict ps) i).isSome := by
      simp only [TaskManager.get_task] at hg
      simp [hg]
    rcases buildDict_keys ps i hs with ⟨q, hq, hqi⟩
    rcases parseRecords_keys c c' rs ps h q hq with ⟨r, hr, hri⟩
    exact hi r hr (by rw [hri, hqi])

/-- Witness for C5's theorem: loading a two-record file over the one-task
manager replaces its collection with the two parsed tasks and drops the
previously held id 1. -/
theorem load_from_file_replaces_witness :
    mC1.load_from_file 0 (.taskArray
      [{ id := some 7, title := some "z", description := none,
         priority := some "LOW", status := some "DONE",
         created_at := some "T1", completed_at := none, project_id := none },
       { id := some 4, title := some "q", description := some "d",
         priority := some "URGENT", status := some "TODO",
         created_at := some "T2", completed_at := some "T3",
         project_id := some "pr" }])
      = (⟨[(7, { id := 7, title := "z", description := "",
                 priority := PrioVal.enum Priority.LOW,
                 status := StatusVal.enum Status.DONE, created_at := "T1",
                 completed_at := none, project_id := none }),
           (4, { id := 4, title := "q", description := "d",
                 priority := PrioVal.enum Priority.URGENT,
                 status := StatusVal.enum Status.TODO, created_at := "T2",
                 completed_at := some "T3", project_id := some "pr" })]⟩,
         2, .ok true)
    ∧ (mC1.load_from_file 0 (.taskArray
      [{ id := some 7, title := some "z", description := none,
         priority := some "LOW", status := some "DONE",
         created_at := some "T1", completed_at := none, project_id := none },
       { id := some 4, title := some "q", description := some "d",
         priority := some "URGENT", status := some "TODO",
         created_at := some "T2", completed_at := some "T3",
         project_id := some "pr" }])).1.get_task 1 = none := by
  have h := load_from_file_replaces mC1 0 2
    [{ id := some 7, title := some "z", description := none,
       priority := some "LOW", status := some "DONE",
       created_at := some "T1", completed_at := none, project_id := none },
     { id := some 4, title := some "q", description := some "d",
       priority := some "URGENT", status := some "TODO",
       created_at := some "T2", completed_at := some "T3",
       project_id := some "pr" }]
    [(7, { id := 7, title := "z", description := "",
           priority := PrioVal.enum Priority.LOW,
           status := StatusVal.enum Status.DONE,
           created_at := "T1", completed_at := none, project_id := none }),
     (4, { id := 4, title := "q", description := "d",
           priority := PrioVal.enum Priority.URGENT,
           status := StatusVal.enum Status.TODO,
           created_at := "T2", completed_at := some "T3",
           project_id := some "pr" })] rfl
  exact ⟨by rw [h.1] ; rfl, h.2.2 1 (by decide)⟩

/-- Number of stored tasks carrying a given enumeration priority. -/
def countPrio (l : List (Int × Task)) (p : Priority) : Nat :=
  (l.filter (fun kv => kv.2.priority = PrioVal.enum p)).length

/-- Number of stored tasks carrying a given enumeration status. -/
def countStat (l : List (Int × Task)) (s : Status) : Nat :=
  (l.filter (fun kv => kv.2.status = StatusVal.enum s)).length

theorem countPrio_cons (kv : Int × Task) (rest : List (Int × Task)) (p : Priority) :
    countPrio (kv :: rest) p
      = (if kv.2.priority = PrioVal.enum p then 1 else 0) + countPrio rest p := by
  by_cases hp : kv.2.priority = PrioVal.enum p
  · simp [countPrio, hp]
    omega
  · simp [countPrio, hp]

theorem countStat_cons (kv : Int × Task) (rest : List (Int × Task)) (s : Status) :
    countStat (kv :: rest) s
      = (if kv.2.status = StatusVal.enum s then 1 else 0) + countStat rest s := by
  by_cases hs : kv.2.status = StatusVal.enum s
  · simp [countStat, hs]
    omega
  · simp [countStat, hs]

/-- One pass of the statistics loop, with the eight running counts and the
completed count generalized: each table entry grows by the number of
matching tasks, and the completed count by the number of DONE tasks —
provided every priority and status is a genuine enumeration member. -/
theorem statsLoop_char (l : List (Int × Task))
    (a b c2 d e f g h2 comp : Nat)
    (hyp : ∀ kv ∈ l, (∃ p, kv.2.priority = PrioVal.enum p)
      ∧ (∃ s, kv.2.status = StatusVal.enum s)) :
    statsLoop l [("LOW", a), ("MEDIUM", b), ("HIGH", c2), ("URGENT", d)]
        [("TODO", e), ("IN_PROGRESS", f), ("DONE", g), ("CANCELLED", h2)] comp
      = .ok ([("LOW", a + countPrio l .LOW), ("MEDIUM", b + countPrio l .MEDIUM),
              ("HIGH", c2 + countPrio l .HIGH), ("URGENT", d + countPrio l .URGENT)],
             [("TODO", e + countStat l .TODO),
              ("IN_PROGRESS", f + countStat l .IN_PROGRESS),
              ("DONE", g + countStat l .DONE),
              ("CANCELLED", h2 + countStat l .CANCELLED)],
             comp + countStat l .DONE) := by
  induction l generalizing a b c2 d e f g h2 comp with
  | nil => simp [statsLoop, countPrio, countStat]
  | cons kv rest ih =>
    obtain ⟨k, t⟩ := kv
    obtain ⟨⟨p0, hp0⟩, ⟨s0, hs0⟩⟩ := hyp (k, t) (by simp)
    replace hp0 : t.priority = PrioVal.enum p0 := hp0
    replace hs0 : t.status = StatusVal.enum s0 := hs0
    have hrest : ∀ kv2 ∈ rest, (∃ p, kv2.2.priority = PrioVal.enum p)
        ∧ (∃ s, kv2.2.status = StatusVal.enum s) :=
      fun kv2 hm => hyp kv2 (List.mem_cons_of_mem (k, t) hm)
    have ih' := fun a b c2 d e f g h2 comp => ih a b c2 d e f g h2 comp hrest
    cases p0 <;> cases s0 <;>
      simp [statsLoop, bump, StatusVal.nameE, PrioVal.nameE, Status.name,
        Priority.name, hs0, hp0] <;>
      rw [ih'] <;>
      simp [countPrio_cons, countStat_cons, hs0, hp0] <;>
      omega

/-- `get_statistics` on a manager all of whose stored priorities and
statuses are genuine enumeration members: shared characterization lemma. -/
theorem get_statistics_char_aux (m : TaskManager)
    (h : ∀ kv ∈ m.tasks, (∃ p, kv.2.priority = PrioVal.enum p)
      ∧ (∃ s, kv.2.status = StatusVal.enum s)) :
    m.get_statistics = .ok
      { total := m.tasks.length,
        completed := countStat m.tasks .DONE,
        by_priority := Priority.all.map (fun p => (p.name, countPrio m.tasks p)),
        by_status := Status.all.map (fun s => (s.name, countStat m.tasks s)) } := by
  have hloop := statsLoop_char m.tasks 0 0 0 0 0 0 0 0 0 h
  simp only [Nat.zero_add] at hloop
  simp [TaskManager.get_statistics, Priority.all, Status.all, Priority.name,
    Status.name, hloop]

/-- **C7** (corrected), amended form: for every manager state in which each
stored task's priority and status are genuine `Priority` / `Status`
enumeration members, `get_statistics` returns `total` equal to the number
of stored tasks, `completed` equal to the number of tasks with status DONE,
and `by_priority` / `by_status` tables holding a key for every member of
the `Priority` (resp. `Status`) enumeration — zero-filled for members with
no matching task — whose value is the count of tasks carrying that
priority (resp. status). -/
theorem get_statistics_char (m : TaskManager)
    (h : ∀ kv ∈ m.tasks, (∃ p, kv.2.priority = PrioVal.enum p)
      ∧ (∃ s, kv.2.status = StatusVal.enum s)) :
    m.get_statistics = .ok
      { total := m.tasks.length,
        completed := countStat m.tasks .DONE,
        by_priority := Priority.all.map (fun p => (p.name, countPrio m.tasks p)),
        by_status := Status.all.map (fun s => (s.name, countStat m.tasks s)) } :=
  get_statistics_char_aux m h

/-- The spec's scenario manager: three tasks with priorities HIGH, HIGH,
LOW. -/
def mScenario : TaskManager :=
  ⟨[(1, { id := 1, title := "a", description := "",
          priority := PrioVal.enum Priority.HIGH,
          status := StatusVal.enum Status.TODO, created_at := "T0",
          completed_at := none, project_id := none }),
    (2, { id := 2, title := "b", description := "",
          priority := PrioVal.enum Priority.HIGH,
          status := StatusVal.enum Status.DONE, created_at := "T0",
          completed_at := some "T1", project_id := none }),
    (3, { id := 3, title := "c", description := "",
          priority := PrioVal.enum Priority.LOW,
          status := StatusVal.enum Status.TODO, created_at := "T0",
          completed_at := none, project_id := none })]⟩

/-- Witness for C7's theorem: the spec's HIGH/HIGH/LOW scenario, whose
by-priority table reads HIGH 2, MEDIUM 0, LOW 1, URGENT 0. -/
theorem get_statistics_char_witness :
    mScenario.get_statistics = .ok
      { total := 3, completed := 1,
        by_priority := [("LOW", 1), ("MEDIUM", 0), ("HIGH", 2), ("URGENT", 0)],
        by_status := [("TODO", 2), ("IN_PROGRESS", 0), ("DONE", 1),
                      ("CANCELLED", 0)] } := by
  have h := get_statistics_char mScenario
    (by intro kv hm; fin_cases hm <;> exact ⟨⟨_, rfl⟩, ⟨_, rfl⟩⟩)
  rw [h]
  rfl

/-- The task and manager state reached from `mC1` by an update that stores
the non-enumeration status text "BLOCKED" verbatim. -/
def tBad : Task :=
  { id := 1, title := "a", description := "",
    priority := PrioVal.enum Priority.MEDIUM,
    status := StatusVal.str "BLOCKED", created_at := "T0",
    completed_at := none, project_id := none }

def mBad : TaskManager := ⟨[(1, tBad)]⟩

/-- The task and manager state reached from `mC1` by an update that instead
stores the non-Priority value 5 verbatim as the priority. -/
def tBadP : Task :=
  { id := 1, title := "a", description := "", priority := PrioVal.other 5,
    status := StatusVal.enum Status.TODO, created_at := "T0",
    completed_at := none, project_id := none }

def mBadP : TaskManager := ⟨[(1, tBadP)]⟩

/-- **C7 counterexample**: manager states reachable through `update_task` on
which `get_statistics` does not return statistics at all, refuting the
claim for *every* manager state: storing the status text "BLOCKED" verbatim
makes the loop fail with an `AttributeError` on `status.name`, and storing
the non-Priority value 5 verbatim makes it fail with an `AttributeError` on
`priority.name` even though every status is a genuine member. -/
theorem get_statistics_cex :
    mC1.update_task 1 none none none (some (StatusVal.str "BLOCKED"))
      = (mBad, .ok true)
    ∧ mBad.get_statistics = .error (.attributeError "name")
    ∧ mC1.update_task 1 none none (some (PrioArg.other 5)) none
      = (mBadP, .ok true)
    ∧ mBadP.get_statistics = .error (.attributeError "name") :=
  ⟨rfl, rfl, rfl, rfl⟩

/-- The error kinds the specification names (`InvalidArgument`, `NotFound`,
`MissingField`, `UnknownEnumValue`, `CorruptData`); an uncaught
`AttributeError` is none of them, and neither is the `TypeError` that the
load path raises and swallows internally. -/
def Err.isSpecNamed : Err → Bool
  | .missingField _ => true
  | .unknownEnum _ _ => true
  | .invalidTitle => true
  | .invalidPriorityType => true
  | .notFound => true
  | .corruptData => true
  | .typeErrorNotIndexable => false
  | .attributeError _ => false

/-- Serialization succeeds on every task whose priority and status are
enumeration members. -/
theorem serializeTasks_ok (l : List (Int × Task))
    (h : ∀ kv ∈ l, (∃ p, kv.2.priority = PrioVal.enum p)
      ∧ (∃ s, kv.2.status = StatusVal.enum s)) :
    ∃ rs, serializeTasks l = .ok rs := by
  induction l with
  | nil => exact ⟨[], rfl⟩
  | cons kv rest ih =>
    obtain ⟨⟨p0, hp0⟩, ⟨s0, hs0⟩⟩ := h kv (by simp)
    obtain ⟨rs, hrs⟩ := ih (fun kv2 hm => h kv2 (List.mem_cons_of_mem kv hm))
    have hd : Task.to_dict kv.2 = .ok
        { id := some kv.2.id, title := some kv.2.title,
          description := some kv.2.description,
          priority := some p0.name, status := some s0.name,
          created_at := some kv.2.created_at,
          completed_at := kv.2.completed_at,
          project_id := kv.2.project_id } := by
      simp [Task.to_dict, hp0, hs0, PrioVal.nameE, StatusVal.nameE]
    refine ⟨{ id := some kv.2.id, title := some kv.2.title,
              description := some kv.2.description,
              priority := some p0.name, status := some s0.name,
              created_at := some kv.2.created_at,
              completed_at := kv.2.completed_at,
              project_id := kv.2.project_id } :: rs, ?_⟩
    simp only [serializeTasks, hd, hrs]

/-- **C10** (confirmed): for every manager in which each stored task's
status and priority are genuine enumeration members, `get_statistics` and
`save_to_file` succeed; but on the reachable state `mBad` — produced by
`update_task` storing the non-enumeration status text "BLOCKED" verbatim —
both fail with an `AttributeError`, which is none of the spec's named
error kinds. -/
theorem stats_save_safety :
    (∀ m : TaskManager,
      (∀ kv ∈ m.tasks, (∃ p, kv.2.priority = PrioVal.enum p)
        ∧ (∃ s, kv.2.status = StatusVal.enum s)) →
      (∃ st, m.get_statistics = .ok st) ∧ (∃ rs, m.save_to_file = .ok rs))
    ∧ (mC1.update_task 1 none none none (some (StatusVal.str "BLOCKED"))
        = (mBad, .ok true)
      ∧ mBad.get_statistics = .error (.attributeError "name")
      ∧ mBad.save_to_file = .error (.attributeError "name")
      ∧ (Err.attributeError "name").isSpecNamed = false) := by
  refine ⟨fun m h => ⟨⟨_, get_statistics_char_aux m h⟩,
      serializeTasks_ok m.tasks h⟩,
    rfl, rfl, rfl, rfl⟩

/-- Witness for C10's theorem: a well-typed one-task manager on which both
operations succeed. -/
theorem stats_save_safety_witness :
    (∃ st, mScenario.get_statistics = .ok st)
    ∧ (∃ rs, mScenario.save_to_file = .ok rs) :=
  stats_save_safety.1 mScenario
    (by intro kv hm; fin_cases hm <;> exact ⟨⟨_, rfl⟩, ⟨_, rfl⟩⟩)

/-- One valid `add_task` call returns the id `counter + 1` and advances the
process counter to it, whichever manager instance performs the call. -/
theorem addTaskAt_valid (p : ProcState) (i : Nat) (now title descr : String)
    (prio : Priority) (h : title ≠ "") :
    (p.addTaskAt i now title descr prio).2 = .ok ((p.counter + 1 : Nat) : Int)
    ∧ (p.addTaskAt i now title descr prio).1.counter = p.counter + 1 := by
  simp [ProcState.addTaskAt, TaskManager.add_task, Task.construct, h]

/-- Any sequence of valid `add_task` calls, spread over any manager
instances, returns the ids `counter+1, counter+2, ...` in order and leaves
the counter advanced by the number of calls. -/
theorem runAdds_ids (reqs : List AddReq) (p : ProcState)
    (h : ∀ r ∈ reqs, r.title ≠ "") :
    (runAdds p reqs).2 = (List.range reqs.length).map
      (fun k => Except.ok ((p.counter + k + 1 : Nat) : Int))
    ∧ (runAdds p reqs).1.counter = p.counter + reqs.length := by
  induction reqs generalizing p with
  | nil => simp [runAdds]
  | cons r rest ih =>
    have hr : r.title ≠ "" := h r (by simp)
    have hrest : ∀ x ∈ rest, x.title ≠ "" :=
      fun x hx => h x (List.mem_cons_of_mem r hx)
    rcases hat : p.addTaskAt r.idx r.now r.title r.description r.priority
      with ⟨p', res⟩
    have h1 := addTaskAt_valid p r.idx r.now r.title r.description r.priority hr
    rw [hat] at h1
    have ih' := ih p' hrest
    rcases hrun : runAdds p' rest with ⟨p'', results⟩
    rw [hrun] at ih'
    have hgoal : runAdds p (r :: rest) = (p'', res :: results) := by
      simp only [runAdds, hat, hrun]
    obtain ⟨h1a, h1b⟩ := h1
    replace h1a : res = Except.ok ((p.counter + 1 : Nat) : Int) := h1a
    replace h1b : p'.counter = p.counter + 1 := h1b
    obtain ⟨ih1, ih2⟩ := ih'
    replace ih1 : results = (List.range rest.length).map
        (fun k => Except.ok ((p'.counter + k + 1 : Nat) : Int)) := ih1
    replace ih2 : p''.counter = p'.counter + rest.length := ih2
    rw [hgoal]
    constructor
    · rw [h1a, ih1]
      simp only [h1b, List.length_cons, List.range_succ_eq_map, List.map_cons,
        List.map_map]
      congr 1
      simp only [List.map_inj_left, Function.comp_apply, Except.ok.injEq]
      intro a ha
      push_cast
      omega
    · rw [ih2, h1b]
      simp only [List.length_cons]
      omega

/-- **C8** (confirmed): from a fresh process (counter at 0), any sequence of
valid `add_task` calls — regardless of which manager instance performs each
one — returns the ids 1, 2, ..., n in order: pairwise distinct, strictly
increasing, positive, starting at 1, and never reused within the
sequence. -/
theorem add_task_ids (ms : List TaskManager) (reqs : List AddReq)
    (h : ∀ r ∈ reqs, r.title ≠ "") :
    (runAdds ⟨0, ms⟩ reqs).2 = (List.range reqs.length).map
        (fun k => Except.ok ((k + 1 : Nat) : Int))
    ∧ ((List.range reqs.length).map
        (fun k => ((k + 1 : Nat) : Int))).Pairwise (· < ·)
    ∧ ∀ x ∈ (List.range reqs.length).map (fun k => ((k + 1 : Nat) : Int)),
        0 < x := by
  obtain ⟨h1, _⟩ := runAdds_ids reqs ⟨0, ms⟩ h
  refine ⟨by simpa using h1, ?_, ?_⟩
  · refine List.Pairwise.map _ ?_ (List.pairwise_lt_range _)
    intro a b hab
    push_cast
    omega
  · intro x hx
    simp only [List.mem_map] at hx
    obtain ⟨k, _, hk⟩ := hx
    rw [← hk]
    positivity

/-- Witness for C8's theorem: three valid calls, two managers, ids 1, 2, 3. -/
theorem add_task_ids_witness :
    (runAdds ⟨0, [⟨[]⟩, ⟨[]⟩]⟩
      [⟨0, "T0", "a", "", Priority.LOW⟩, ⟨1, "T0", "b", "", Priority.HIGH⟩,
       ⟨0, "T0", "c", "", Priority.MEDIUM⟩]).2
      = [Except.ok 1, Except.ok 2, Except.ok 3] := by
  have h := (add_task_ids [⟨[]⟩, ⟨[]⟩]
    [⟨0, "T0", "a", "", Priority.LOW⟩, ⟨1, "T0", "b", "", Priority.HIGH⟩,
     ⟨0, "T0", "c", "", Priority.MEDIUM⟩]
    (by intro r hr; fin_cases hr <;> decide)).1
  rw [h]
  rfl
end TaskMan
